import Mathlib

/-!
Verification development for a Conway's Game of Life implementation in Go
(package `game`, file `game.go`, plus the `main.go` variant of the same design).

The embedding below follows `src/game/game.go`. Go machine integers are
modelled as `Int` where the code can see negative values (cell coordinates and
cursor positions) and as `Nat` for the counters that are only ever incremented
from 0 or reset to 0 (`ticks`, `generation`, `ticksPerGeneration`). Go's
integer division truncates toward zero, which is `Int.tdiv` in Lean. The Go
backing array `[maxColumns][maxRows]bool` is modelled as a total function
`Int → Int → Bool` together with explicit bound checks at every access the Go
code performs; an access the Go runtime would reject (index out of range,
i.e. a panic) is modelled by returning `none` from the operation.
-/

namespace GoL

/-- `ScreenWidth = 640` from game.go. -/
def ScreenWidth : Int := 640

/-- `ScreenHeight = 480` from game.go. -/
def ScreenHeight : Int := 480

/-- `MinCellSize = 5` from game.go. -/
def MinCellSize : Int := 5

/-- `maxColumns = ScreenWidth / MinCellSize` (= 128) from game.go. -/
def maxColumns : Int := Int.tdiv ScreenWidth MinCellSize

/-- `maxRows = ScreenHeight / MinCellSize` (= 96) from game.go. -/
def maxRows : Int := Int.tdiv ScreenHeight MinCellSize

/-- The `State` enumeration from game.go: `Paused` and `Running`. -/
inductive State where
  | Paused : State
  | Running : State
deriving DecidableEq, Repr

/-- The `ThemeID` enumeration from theme.go: `Dark` and `Light`. -/
inductive ThemeID where
  | Dark : ThemeID
  | Light : ThemeID
deriving DecidableEq, Repr

/-- The `Game` struct from game.go. The two `*Theme` pointers carry only
display colors and a fixed `ID` (`darkTheme.ID = Dark`, `lightTheme.ID =
Light`); the simulation state only ever reads `selectedThemeID`, so the color
payload is not modelled. -/
structure Game where
  grid : Int → Int → Bool
  cellSize : Int
  columns : Int
  rows : Int
  ticks : Nat
  generation : Nat
  ticksPerGeneration : Nat
  state : State
  selectedThemeID : ThemeID

/-- The `Options` struct from game.go. -/
structure Options where
  CellSize : Int

/-- `NewFromOptions` from game.go. `log.Fatalf` aborts the process, so a
cell size below `MinCellSize` yields no game value at all, modelled as `none`.
`ebiten.TPS()` is an external clock rate, passed here as the parameter `tps`;
the code sets `ticksPerGeneration = ebiten.TPS() / 8`. The Go zero-value
backing array is all `false`, and the zero values of `ticks` and `generation`
are 0. -/
def NewFromOptions (tps : Nat) (options : Options) : Option Game :=
  if options.CellSize < MinCellSize then
    none
  else
    some {
      grid := fun _ _ => false
      cellSize := options.CellSize
      columns := Int.tdiv ScreenWidth options.CellSize
      rows := Int.tdiv ScreenHeight options.CellSize
      ticks := 0
      generation := 0
      ticksPerGeneration := tps / 8
      state := State.Paused
      selectedThemeID := ThemeID.Dark }

/-- The eight `(i, j)` offsets visited by the double loop in
`countLiveNeighbors` in game.go (the loop runs `i, j ∈ {-1, 0, 1}` and
`continue`s past `(0, 0)`), in loop order. -/
def neighborOffsets : List (Int × Int) :=
  [(-1, -1), (-1, 0), (-1, 1), (0, -1), (0, 1), (1, -1), (1, 0), (1, 1)]

/-- `countLiveNeighbors` from game.go: for each offset, the neighbor
`(x+i, y+j)` contributes 1 exactly when it passes the bounds check
`nx >= 0 && nx < g.columns && ny >= 0 && ny < g.rows` and the cell is live. -/
def countLiveNeighbors (g : Game) (x y : Int) : Nat :=
  neighborOffsets.foldl
    (fun count p =>
      if 0 ≤ x + p.1 ∧ x + p.1 < g.columns ∧ 0 ≤ y + p.2 ∧ y + p.2 < g.rows ∧
          g.grid (x + p.1) (y + p.2) = true then
        count + 1
      else
        count)
    0

/-- `cycle` from game.go: a fresh zero-initialized backing array `newGrid` is
filled, for every active cell, with the Game-of-Life rule evaluated against
the old grid; then `g.grid = newGrid` replaces the whole backing array (so
everything outside the active region becomes `false`), and
`g.generation++`. -/
def cycle (g : Game) : Game :=
  { g with
    grid := fun i j =>
      if 0 ≤ i ∧ i < g.columns ∧ 0 ≤ j ∧ j < g.rows then
        let count := countLiveNeighbors g i j
        if g.grid i j then
          count == 2 || count == 3
        else
          count == 3
      else
        false
    generation := g.generation + 1 }

/-- `toggleState` from game.go: flip `Paused`/`Running`, then `g.ticks = 0`. -/
def toggleState (g : Game) : Game :=
  if g.state = State.Paused then
    { g with state := State.Running, ticks := 0 }
  else
    { g with state := State.Paused, ticks := 0 }

/-- `reset` from game.go: the double loop over the active region sets
`g.grid[i][j] = false` and `g.generation = 0` for every active cell; so the
active cells become dead, and `generation` becomes 0 exactly when the loop
body runs at least once (i.e. when `0 < columns` and `0 < rows`). Nothing
else — in particular neither `g.ticks` nor `g.state` — is touched. -/
def reset (g : Game) : Game :=
  { g with
    grid := fun i j =>
      if 0 ≤ i ∧ i < g.columns ∧ 0 ≤ j ∧ j < g.rows then false else g.grid i j
    generation := if 0 < g.columns ∧ 0 < g.rows then 0 else g.generation }

/-- `switchTheme` from game.go: flip `selectedThemeID` between Dark/Light. -/
def switchTheme (g : Game) : Game :=
  if g.selectedThemeID = ThemeID.Dark then
    { g with selectedThemeID := ThemeID.Light }
  else
    { g with selectedThemeID := ThemeID.Dark }

/-- The first two statements of `Update` in game.go (the clock-tick part):
`if g.state == Running { g.ticks++ }` and then
`if g.ticks == g.ticksPerGeneration { g.ticks = 0; g.cycle() }` (the equality
test runs unconditionally, also while Paused). `cycle` reads neither `ticks`
nor `state`, so setting `ticks` to 0 before invoking it is faithful. -/
def tick (g : Game) : Game :=
  let g1 := if g.state = State.Running then { g with ticks := g.ticks + 1 } else g
  if g1.ticks = g1.ticksPerGeneration then cycle { g1 with ticks := 0 } else g1

/-- The mouse-click branch of `Update` in game.go, after the cursor position
has been divided by `cellSize`: auto-pause if Running, then
`g.grid[cellX][cellY] = !g.grid[cellX][cellY]`. The Go array access bounds are
the backing array's `maxColumns × maxRows` — there is no check against the
active `columns × rows` — and an index outside the backing array is a runtime
panic, modelled as `none`. -/
def editCell (cellX cellY : Int) (g : Game) : Option Game :=
  let g1 := if g.state = State.Running then { g with state := State.Paused } else g
  if 0 ≤ cellX ∧ cellX < maxColumns ∧ 0 ≤ cellY ∧ cellY < maxRows then
    some { g1 with
      grid := fun i j => if i = cellX ∧ j = cellY then !(g1.grid i j) else g1.grid i j }
  else
    none

/-- The per-frame input observed by `Update` in game.go: whether the left
mouse button was just pressed (and at which cursor position), and whether the
Space, R and T keys were just pressed. -/
structure Input where
  mousePressed : Bool
  cursorX : Int
  cursorY : Int
  spacePressed : Bool
  rPressed : Bool
  tPressed : Bool

/-- An `Input` with no button or key pressed: a bare clock tick. -/
def noInput : Input :=
  { mousePressed := false, cursorX := 0, cursorY := 0,
    spacePressed := false, rPressed := false, tPressed := false }

/-- The three key branches at the end of `Update` in game.go, in source order:
Space runs `toggleState`, R runs `reset`, T runs `switchTheme`. -/
def applyKeys (inp : Input) (g : Game) : Game :=
  let h1 := if inp.spacePressed then toggleState g else g
  let h2 := if inp.rPressed then reset h1 else h1
  if inp.tPressed then switchTheme h2 else h2

/-- `Update` from game.go, in source order: the clock-tick part (`tick`), then
the mouse branch (cursor position divided by `cellSize` with Go's
truncated division, then `editCell`), then the Space/R/T key branches
(`applyKeys`). `none` models the runtime panic of an out-of-array grid access
in the mouse branch. -/
def update (inp : Input) (g : Game) : Option Game :=
  let g1 := tick g
  let g2 :=
    if inp.mousePressed then
      editCell (Int.tdiv inp.cursorX g1.cellSize) (Int.tdiv inp.cursorY g1.cellSize) g1
    else
      some g1
  g2.map (applyKeys inp)


/-- A sample mid-simulation game state used to instantiate theorems with
hypotheses and to exhibit counterexamples: a 64×48 active grid (cell size 10)
holding a horizontal blinker at row 2, columns 1–3, with nonzero tick and
generation counters and the simulation running. -/
def sampleGame : Game :=
  { grid := fun i j => decide (j = 2 ∧ (i = 1 ∨ i = 2 ∨ i = 3))
    cellSize := 10
    columns := 64
    rows := 48
    ticks := 3
    generation := 5
    ticksPerGeneration := 7
    state := State.Running
    selectedThemeID := ThemeID.Dark }

/-- Claim C1: `cycle` computes the next value of every active cell solely from
the old grid: a live cell stays alive iff it has 2 or 3 live neighbors, a dead
cell becomes alive iff it has exactly 3 live neighbors, and the generation
counter increases by exactly 1. -/
theorem cycle_applies_life_rule (g : Game) (col row : Int)
    (hc0 : 0 ≤ col) (hc1 : col < g.columns) (hr0 : 0 ≤ row) (hr1 : row < g.rows) :
    ((cycle g).grid col row = true ↔
      ((g.grid col row = true ∧
          (countLiveNeighbors g col row = 2 ∨ countLiveNeighbors g col row = 3)) ∨
        (g.grid col row = false ∧ countLiveNeighbors g col row = 3))) ∧
    (cycle g).generation = g.generation + 1 := by
  refine ⟨?_, rfl⟩
  simp only [cycle]
  rw [if_pos ⟨hc0, hc1, hr0, hr1⟩]
  cases hLive : g.grid col row with
  | true => simp
  | false => simp

/-- Witness for C1: the blinker cell (2, 1) of `sampleGame` is dead with
exactly 3 live neighbors, so it comes alive after one `cycle`, and the
generation counter moves from 5 to 6. -/
theorem cycle_applies_life_rule_witness :
    (0 ≤ (2 : Int) ∧ (2 : Int) < sampleGame.columns ∧
      0 ≤ (1 : Int) ∧ (1 : Int) < sampleGame.rows) ∧
    (((cycle sampleGame).grid 2 1 = true ↔
      ((sampleGame.grid 2 1 = true ∧
          (countLiveNeighbors sampleGame 2 1 = 2 ∨ countLiveNeighbors sampleGame 2 1 = 3)) ∨
        (sampleGame.grid 2 1 = false ∧ countLiveNeighbors sampleGame 2 1 = 3))) ∧
      (cycle sampleGame).generation = sampleGame.generation + 1) :=
  ⟨by decide, cycle_applies_life_rule sampleGame 2 1 (by decide) (by decide)
    (by decide) (by decide)⟩

/-- Claim C4: a manual cell edit at an in-bounds coordinate pauses a running
game, leaves a paused game paused, and flips exactly the targeted cell; no
other state component changes. -/
theorem editCell_autopause_and_flip (g : Game) (x y : Int)
    (hx0 : 0 ≤ x) (hx1 : x < g.columns) (hy0 : 0 ≤ y) (hy1 : y < g.rows)
    (hcols : g.columns ≤ maxColumns) (hrows : g.rows ≤ maxRows) :
    ∃ g', editCell x y g = some g' ∧
      g'.state = State.Paused ∧
      g'.grid x y = !(g.grid x y) ∧
      (∀ i j, ¬(i = x ∧ j = y) → g'.grid i j = g.grid i j) ∧
      g'.ticks = g.ticks ∧ g'.generation = g.generation ∧
      g'.cellSize = g.cellSize ∧ g'.columns = g.columns ∧ g'.rows = g.rows := by
  have hxm : x < maxColumns := lt_of_lt_of_le hx1 hcols
  have hym : y < maxRows := lt_of_lt_of_le hy1 hrows
  cases hs : g.state with
  | Paused =>
    have he : editCell x y g =
        some { g with grid := fun i j => if i = x ∧ j = y then !(g.grid i j) else g.grid i j } := by
      simp only [editCell, hs]
      rw [if_pos ⟨hx0, hxm, hy0, hym⟩]
      simp [hs]
    refine ⟨_, he, hs, by simp, ?_, rfl, rfl, rfl, rfl, rfl⟩
    intro i j hij
    simp only [if_neg hij]
  | Running =>
    have he : editCell x y g =
        some { g with state := State.Paused,
                      grid := fun i j => if i = x ∧ j = y then !(g.grid i j) else g.grid i j } := by
      simp only [editCell, hs, if_true]
      rw [if_pos ⟨hx0, hxm, hy0, hym⟩]
    refine ⟨_, he, rfl, by simp, ?_, rfl, rfl, rfl, rfl, rfl⟩
    intro i j hij
    simp only [if_neg hij]

/-- Witness for C4: editing cell (0, 0) of the running `sampleGame` yields a
paused game with exactly that cell flipped. -/
theorem editCell_autopause_and_flip_witness :
    (0 ≤ (0 : Int) ∧ (0 : Int) < sampleGame.columns ∧
      0 ≤ (0 : Int) ∧ (0 : Int) < sampleGame.rows ∧
      sampleGame.columns ≤ maxColumns ∧ sampleGame.rows ≤ maxRows) ∧
    (∃ g', editCell 0 0 sampleGame = some g' ∧
      g'.state = State.Paused ∧
      g'.grid 0 0 = !(sampleGame.grid 0 0) ∧
      (∀ i j, ¬(i = 0 ∧ j = 0) → g'.grid i j = sampleGame.grid i j) ∧
      g'.ticks = sampleGame.ticks ∧ g'.generation = sampleGame.generation ∧
      g'.cellSize = sampleGame.cellSize ∧ g'.columns = sampleGame.columns ∧
      g'.rows = sampleGame.rows) :=
  ⟨⟨by decide, by decide, by decide, by decide, by decide, by decide⟩,
    editCell_autopause_and_flip sampleGame 0 0 (by decide) (by decide) (by decide)
      (by decide) (by decide) (by decide)⟩

/-- Counterexample for C5: the claim says `Reset` sets the internal tick
counter to 0, but `reset` never touches `ticks`: resetting `sampleGame`
(whose tick counter is 3) leaves the tick counter nonzero. -/
theorem reset_does_not_zero_ticks : (reset sampleGame).ticks ≠ 0 := by decide

/-- Claim C5 as amended: for every controller state satisfying the data-model
invariant (positive active extents), `reset` sets every active cell to dead
and the generation counter to 0, and leaves the internal tick counter, the
run state, and the configuration (cellSize, columns, rows) unchanged. -/
theorem reset_effect (g : Game) (hc : 0 < g.columns) (hr : 0 < g.rows) :
    (∀ i j, 0 ≤ i → i < g.columns → 0 ≤ j → j < g.rows → (reset g).grid i j = false) ∧
    (reset g).generation = 0 ∧
    (reset g).ticks = g.ticks ∧
    (reset g).state = g.state ∧
    (reset g).cellSize = g.cellSize ∧
    (reset g).columns = g.columns ∧
    (reset g).rows = g.rows := by
  refine ⟨?_, ?_, rfl, rfl, rfl, rfl, rfl⟩
  · intro i j h1 h2 h3 h4
    simp only [reset]
    rw [if_pos ⟨h1, h2, h3, h4⟩]
  · simp only [reset]
    rw [if_pos ⟨hc, hr⟩]

/-- Witness for the amended C5, instantiated at `sampleGame`. -/
theorem reset_effect_witness :
    (0 < sampleGame.columns ∧ 0 < sampleGame.rows) ∧
    ((∀ i j, 0 ≤ i → i < sampleGame.columns → 0 ≤ j → j < sampleGame.rows →
        (reset sampleGame).grid i j = false) ∧
      (reset sampleGame).generation = 0 ∧
      (reset sampleGame).ticks = sampleGame.ticks ∧
      (reset sampleGame).state = sampleGame.state ∧
      (reset sampleGame).cellSize = sampleGame.cellSize ∧
      (reset sampleGame).columns = sampleGame.columns ∧
      (reset sampleGame).rows = sampleGame.rows) :=
  ⟨⟨by decide, by decide⟩, reset_effect sampleGame (by decide) (by decide)⟩

/-- Counterexample for C6: the claim says `ToggleRunState` changes no state
component other than the run state, but `toggleState` also resets the internal
tick counter: toggling `sampleGame` (whose tick counter is 3) changes
`ticks`. -/
theorem toggleState_changes_ticks : (toggleState sampleGame).ticks ≠ sampleGame.ticks := by
  decide

/-- Claim C6 as amended: `toggleState` swaps the run state between Paused and
Running, never fails, resets the internal tick counter to 0, and changes
nothing else (grid cells, generation counter, cellSize, columns, rows,
cadence, and theme selection are unchanged). -/
theorem toggleState_effect (g : Game) :
    (toggleState g).state =
      (if g.state = State.Paused then State.Running else State.Paused) ∧
    (toggleState g).ticks = 0 ∧
    (∀ i j, (toggleState g).grid i j = g.grid i j) ∧
    (toggleState g).generation = g.generation ∧
    (toggleState g).cellSize = g.cellSize ∧
    (toggleState g).columns = g.columns ∧
    (toggleState g).rows = g.rows ∧
    (toggleState g).ticksPerGeneration = g.ticksPerGeneration ∧
    (toggleState g).selectedThemeID = g.selectedThemeID := by
  by_cases hs : g.state = State.Paused
  · simp [toggleState, hs]
  · simp [toggleState, hs]

/-- Claim C7: construction fails (no game value at all) iff the cell size is
below `MinCellSize`; otherwise it yields a game with all cells dead,
`columns = ScreenWidth / cellSize` and `rows = ScreenHeight / cellSize`
(Go truncated division), generation 0, tick counter 0, and initial run state
Paused. -/
theorem NewFromOptions_spec (tps : Nat) (options : Options) :
    (options.CellSize < MinCellSize → NewFromOptions tps options = none) ∧
    (MinCellSize ≤ options.CellSize →
      ∃ g, NewFromOptions tps options = some g ∧
        (∀ i j, g.grid i j = false) ∧
        g.columns = Int.tdiv ScreenWidth options.CellSize ∧
        g.rows = Int.tdiv ScreenHeight options.CellSize ∧
        g.generation = 0 ∧
        g.state = State.Paused ∧
        g.ticks = 0 ∧
        g.cellSize = options.CellSize) := by
  constructor
  · intro h
    simp only [NewFromOptions]
    rw [if_pos h]
  · intro h
    refine ⟨{ grid := fun _ _ => false
              cellSize := options.CellSize
              columns := Int.tdiv ScreenWidth options.CellSize
              rows := Int.tdiv ScreenHeight options.CellSize
              ticks := 0
              generation := 0
              ticksPerGeneration := tps / 8
              state := State.Paused
              selectedThemeID := ThemeID.Dark },
            ?_, fun i j => rfl, rfl, rfl, rfl, rfl, rfl, rfl⟩
    simp only [NewFromOptions]
    rw [if_neg (not_lt.mpr h)]

/-- Witness for C7: cell size 4 is rejected, cell size 5 yields a paused,
all-dead 128×96 game at generation 0. -/
theorem NewFromOptions_spec_witness :
    NewFromOptions 60 ⟨4⟩ = none ∧
    ∃ g, NewFromOptions 60 ⟨5⟩ = some g ∧
      (∀ i j, g.grid i j = false) ∧
      g.columns = Int.tdiv ScreenWidth (5 : Int) ∧
      g.rows = Int.tdiv ScreenHeight (5 : Int) ∧
      g.generation = 0 ∧
      g.state = State.Paused ∧
      g.ticks = 0 ∧
      g.cellSize = (5 : Int) :=
  ⟨(NewFromOptions_spec 60 ⟨4⟩).1 (by decide),
    (NewFromOptions_spec 60 ⟨5⟩).2 (by decide)⟩

/-- While Running with the tick counter strictly below the cadence threshold
after the increment, `tick` only increments the counter. -/
theorem tick_running_no_step (g : Game) (hs : g.state = State.Running)
    (h : g.ticks + 1 ≠ g.ticksPerGeneration) :
    tick g = { g with ticks := g.ticks + 1 } := by
  simp only [tick, hs, if_true]
  rw [if_neg h]

/-- While Running with the tick counter hitting the cadence threshold exactly,
`tick` zeroes the counter and runs one generation step. -/
theorem tick_running_step (g : Game) (hs : g.state = State.Running)
    (h : g.ticks + 1 = g.ticksPerGeneration) :
    tick g = cycle { g with ticks := 0 } := by
  simp only [tick, hs, if_true]
  rw [if_pos h]

/-- Iterating `tick` from a Running state with a zeroed counter, staying below
the cadence, only advances the counter. -/
theorem tick_iterate_below (g : Game) (hs : g.state = State.Running)
    (h0 : g.ticks = 0) :
    ∀ k, k ≤ g.ticksPerGeneration - 1 → tick^[k] g = { g with ticks := k } := by
  intro k hk
  induction k with
  | zero =>
    simp only [Function.iterate_zero, id]
    rw [← h0]
  | succ n ih =>
    rw [Function.iterate_succ_apply', ih (Nat.le_of_succ_le hk)]
    rw [tick_running_no_step { g with ticks := n } hs
      (show n + 1 ≠ g.ticksPerGeneration by omega)]

/-- Claim C2: with cadence `N ≥ 1` and tick counter 0, the first `N-1` ticks
while Running leave the generation counter unchanged; the Nth tick increments
it by exactly 1 and zeroes the tick counter. -/
theorem tick_cadence (g : Game) (hs : g.state = State.Running) (h0 : g.ticks = 0)
    (hN : 1 ≤ g.ticksPerGeneration) :
    (∀ k, k ≤ g.ticksPerGeneration - 1 → (tick^[k] g).generation = g.generation) ∧
    (tick^[g.ticksPerGeneration] g).generation = g.generation + 1 ∧
    (tick^[g.ticksPerGeneration] g).ticks = 0 := by
  have hfull : tick^[g.ticksPerGeneration] g =
      cycle { g with ticks := 0 } := by
    conv_lhs => rw [show g.ticksPerGeneration = (g.ticksPerGeneration - 1) + 1 by omega]
    rw [Function.iterate_succ_apply',
      tick_iterate_below g hs h0 (g.ticksPerGeneration - 1) le_rfl,
      tick_running_step { g with ticks := g.ticksPerGeneration - 1 } hs
        (show g.ticksPerGeneration - 1 + 1 = g.ticksPerGeneration by omega)]
  refine ⟨?_, ?_, ?_⟩
  · intro k hk
    rw [tick_iterate_below g hs h0 k hk]
  · rw [hfull]; rfl
  · rw [hfull]; rfl

/-- `sampleGame` with a zeroed tick counter, still Running: the start state
for exercising the tick cadence. -/
def cadenceGame : Game := { sampleGame with ticks := 0 }

/-- Witness for C2: `cadenceGame` has cadence 7; applying the cadence theorem
shows ticks 1–6 leave the generation counter at 5 and the 7th tick moves it to
6 with the tick counter back at 0. -/
theorem tick_cadence_witness :
    (cadenceGame.state = State.Running ∧ cadenceGame.ticks = 0 ∧
      1 ≤ cadenceGame.ticksPerGeneration) ∧
    ((∀ k, k ≤ cadenceGame.ticksPerGeneration - 1 →
        (tick^[k] cadenceGame).generation = cadenceGame.generation) ∧
      (tick^[cadenceGame.ticksPerGeneration] cadenceGame).generation =
        cadenceGame.generation + 1 ∧
      (tick^[cadenceGame.ticksPerGeneration] cadenceGame).ticks = 0) :=
  ⟨⟨rfl, rfl, by decide⟩, tick_cadence cadenceGame rfl rfl (by decide)⟩

/-- An all-dead 64×48 paused game (cell size 10), so columns = 64 < maxColumns
and rows = 48 < maxRows: coordinates in the gap are outside the active extents
but inside the backing array. -/
def smallGame : Game :=
  { grid := fun _ _ => false
    cellSize := 10
    columns := 64
    rows := 48
    ticks := 0
    generation := 0
    ticksPerGeneration := 7
    state := State.Paused
    selectedThemeID := ThemeID.Dark }

/-- Counterexample for C8: column 64 is outside the active extents
(`columns = 64`) of `smallGame`, yet the edit neither fails nor leaves the
grid unchanged — it silently toggles the backing cell (64, 0) to live. -/
theorem editCell_out_of_extents_toggles :
    smallGame.columns = 64 ∧
    (editCell 64 0 smallGame).map (fun g => g.grid 64 0) = some true := by
  exact ⟨rfl, rfl⟩

/-- Claim C8 as amended: the cell-edit operation checks coordinates only
against the backing array bounds (maxColumns × maxRows), never against the
active extents: every coordinate inside the backing array — including ones at
or beyond columns/rows — is silently toggled, and a coordinate outside the
backing array is a runtime index-out-of-range panic rather than a recoverable
OutOfBounds failure. -/
theorem editCell_backing_array_check (g : Game) (x y : Int) :
    (0 ≤ x ∧ x < maxColumns ∧ 0 ≤ y ∧ y < maxRows →
      ∃ g', editCell x y g = some g' ∧ g'.grid x y = !(g.grid x y)) ∧
    (¬(0 ≤ x ∧ x < maxColumns ∧ 0 ≤ y ∧ y < maxRows) →
      editCell x y g = none) := by
  constructor
  · intro hb
    cases hs : g.state with
    | Paused =>
      have he : editCell x y g =
          some { g with
                   grid := fun i j => if i = x ∧ j = y then !(g.grid i j) else g.grid i j } := by
        simp only [editCell, hs]
        rw [if_pos hb]
        simp [hs]
      exact ⟨_, he, by simp⟩
    | Running =>
      have he : editCell x y g =
          some { g with state := State.Paused,
                        grid := fun i j =>
                          if i = x ∧ j = y then !(g.grid i j) else g.grid i j } := by
        simp only [editCell, hs, if_true]
        rw [if_pos hb]
      exact ⟨_, he, by simp⟩
  · intro hb
    cases hs : g.state with
    | Paused =>
      simp only [editCell, hs]
      rw [if_neg hb]
    | Running =>
      simp only [editCell, hs, if_true]
      rw [if_neg hb]

/-- Witness for the amended C8: cell (64, 0) of `smallGame` (in the backing
array, outside the active extents) is toggled; cell (128, 0) (outside the
backing array) panics. -/
theorem editCell_backing_array_check_witness :
    ((0 ≤ (64 : Int) ∧ (64 : Int) < maxColumns ∧ 0 ≤ (0 : Int) ∧ (0 : Int) < maxRows) ∧
      ∃ g', editCell 64 0 smallGame = some g' ∧ g'.grid 64 0 = !(smallGame.grid 64 0)) ∧
    (¬(0 ≤ (128 : Int) ∧ (128 : Int) < maxColumns ∧ 0 ≤ (0 : Int) ∧ (0 : Int) < maxRows) ∧
      editCell 128 0 smallGame = none) :=
  ⟨⟨by decide, (editCell_backing_array_check smallGame 64 0).1 (by decide)⟩,
    ⟨by decide, (editCell_backing_array_check smallGame 128 0).2 (by decide)⟩⟩

/-- `toggleState` always zeroes the tick counter. -/
theorem toggleState_ticks (m : Game) : (toggleState m).ticks = 0 := by
  by_cases h : m.state = State.Paused <;> simp [toggleState, h]

/-- `toggleState` keeps the cadence. -/
theorem toggleState_tpg (m : Game) :
    (toggleState m).ticksPerGeneration = m.ticksPerGeneration := by
  by_cases h : m.state = State.Paused <;> simp [toggleState, h]

/-- `switchTheme` keeps the tick counter. -/
theorem switchTheme_ticks (m : Game) : (switchTheme m).ticks = m.ticks := by
  by_cases h : m.selectedThemeID = ThemeID.Dark <;> simp [switchTheme, h]

/-- `switchTheme` keeps the cadence. -/
theorem switchTheme_tpg (m : Game) :
    (switchTheme m).ticksPerGeneration = m.ticksPerGeneration := by
  by_cases h : m.selectedThemeID = ThemeID.Dark <;> simp [switchTheme, h]

/-- While Paused with the tick counter away from the cadence threshold, a
clock tick is a no-op. -/
theorem tick_paused (g : Game) (hs : g.state = State.Paused)
    (h : g.ticks ≠ g.ticksPerGeneration) : tick g = g := by
  simp only [tick, hs]
  rw [if_neg (show ¬(State.Paused = State.Running) by simp)]
  rw [if_neg h]

/-- A clock tick preserves the invariant `ticks < ticksPerGeneration`. -/
theorem tick_ticks_lt (g : Game) (h : g.ticks < g.ticksPerGeneration) :
    (tick g).ticks < (tick g).ticksPerGeneration := by
  cases hs : g.state with
  | Paused =>
    rw [tick_paused g hs (Nat.ne_of_lt h)]
    exact h
  | Running =>
    by_cases he : g.ticks + 1 = g.ticksPerGeneration
    · rw [tick_running_step g hs he]
      show (0 : Nat) < g.ticksPerGeneration
      omega
    · rw [tick_running_no_step g hs he]
      show g.ticks + 1 < g.ticksPerGeneration
      omega

/-- A successful cell edit changes neither the tick counter nor the cadence. -/
theorem editCell_counters (x y : Int) (g g' : Game) (he : editCell x y g = some g') :
    g'.ticks = g.ticks ∧ g'.ticksPerGeneration = g.ticksPerGeneration := by
  by_cases hb : (0 ≤ x ∧ x < maxColumns ∧ 0 ≤ y ∧ y < maxRows)
  · cases hs : g.state with
    | Paused =>
      simp only [editCell, hs] at he
      rw [if_pos hb] at he
      cases Option.some.inj he
      exact ⟨rfl, rfl⟩
    | Running =>
      simp only [editCell, hs, if_true] at he
      rw [if_pos hb] at he
      cases Option.some.inj he
      exact ⟨rfl, rfl⟩
  · cases hs : g.state with
    | Paused =>
      simp only [editCell, hs] at he
      rw [if_neg hb] at he
      exact Option.noConfusion he
    | Running =>
      simp only [editCell, hs, if_true] at he
      rw [if_neg hb] at he
      exact Option.noConfusion he

/-- The Space/R/T key branches preserve the invariant
`ticks < ticksPerGeneration`. -/
theorem applyKeys_ticks_lt (inp : Input) (m : Game)
    (hm : m.ticks < m.ticksPerGeneration) :
    (applyKeys inp m).ticks < (applyKeys inp m).ticksPerGeneration := by
  have hpos : 0 < m.ticksPerGeneration := lt_of_le_of_lt (Nat.zero_le _) hm
  unfold applyKeys
  cases h1 : inp.spacePressed <;> cases h2 : inp.rPressed <;> cases h3 : inp.tPressed <;>
    simp [toggleState_ticks, toggleState_tpg, switchTheme_ticks, switchTheme_tpg, reset] <;>
    omega

/-- One `Update` call preserves the invariant `ticks < ticksPerGeneration`. -/
theorem update_ticks_invariant (inp : Input) (g g' : Game)
    (h : g.ticks < g.ticksPerGeneration) (hu : update inp g = some g') :
    g'.ticks < g'.ticksPerGeneration := by
  have h1 := tick_ticks_lt g h
  cases hmp : inp.mousePressed with
  | false =>
    simp only [update, hmp, Bool.false_eq_true, if_false, Option.map_some'] at hu
    cases Option.some.inj hu
    exact applyKeys_ticks_lt inp (tick g) h1
  | true =>
    simp only [update, hmp, if_true] at hu
    cases he : editCell (Int.tdiv inp.cursorX (tick g).cellSize)
        (Int.tdiv inp.cursorY (tick g).cellSize) (tick g) with
    | none =>
      rw [he] at hu
      exact Option.noConfusion hu
    | some m =>
      rw [he, Option.map_some'] at hu
      cases Option.some.inj hu
      obtain ⟨e1, e2⟩ := editCell_counters _ _ (tick g) m he
      exact applyKeys_ticks_lt inp m (by rw [e1, e2]; exact h1)

/-- The controller states reachable from construction (with a cadence of at
least 1) by any sequence of `Update` calls under arbitrary per-frame input. -/
inductive Reachable (tps : Nat) (opts : Options) : Game → Prop where
  | init (g : Game) (hg : NewFromOptions tps opts = some g)
      (hN : 1 ≤ g.ticksPerGeneration) : Reachable tps opts g
  | step (inp : Input) (g g' : Game) (hr : Reachable tps opts g)
      (hu : update inp g = some g') : Reachable tps opts g'

/-- Claim C10: every state reachable from construction with cadence ≥ 1
satisfies `ticks < ticksPerGeneration` (so in particular `0 ≤ ticks <
ticksPerGeneration`), and consequently a clock tick received while Paused is a
complete no-op — the unconditionally evaluated cadence-equality check never
fires, so no generation step is triggered. -/
theorem reachable_ticks_invariant (tps : Nat) (opts : Options) (g : Game)
    (h : Reachable tps opts g) :
    g.ticks < g.ticksPerGeneration ∧
    (g.state = State.Paused → tick g = g ∧ (tick g).generation = g.generation) := by
  have hinv : g.ticks < g.ticksPerGeneration := by
    induction h with
    | init g0 hg hN =>
      have h0 : g0.ticks = 0 := by
        unfold NewFromOptions at hg
        split at hg
        · exact Option.noConfusion hg
        · cases Option.some.inj hg
          rfl
      omega
    | step inp g1 g2 hr hu ih =>
      exact update_ticks_invariant inp g1 g2 ih hu
  refine ⟨hinv, fun hp => ?_⟩
  have ht : tick g = g := tick_paused g hp (Nat.ne_of_lt hinv)
  exact ⟨ht, by rw [ht]⟩

/-- The state `NewFromOptions` builds for cell size 5 at 60 ticks per
second: a 128×96 all-dead grid, cadence 7, Paused. -/
def initialGame : Game :=
  { grid := fun _ _ => false
    cellSize := 5
    columns := 128
    rows := 96
    ticks := 0
    generation := 0
    ticksPerGeneration := 7
    state := State.Paused
    selectedThemeID := ThemeID.Dark }

/-- Witness for C10, at the freshly constructed `initialGame`. -/
theorem reachable_ticks_invariant_witness :
    Reachable 60 ⟨5⟩ initialGame ∧
    (initialGame.ticks < initialGame.ticksPerGeneration ∧
      (initialGame.state = State.Paused →
        tick initialGame = initialGame ∧
        (tick initialGame).generation = initialGame.generation)) :=
  have hr : Reachable 60 ⟨5⟩ initialGame :=
    Reachable.init initialGame rfl (by decide)
  ⟨hr, reachable_ticks_invariant 60 ⟨5⟩ initialGame hr⟩

/-- Counting a fold that adds 1 for every element satisfying `P` equals the
length of the sublist of elements satisfying `P`. -/
theorem foldl_count_eq_length_filter (P : Int × Int → Prop) [DecidablePred P] :
    ∀ (l : List (Int × Int)) (n : Nat),
      l.foldl (fun count p => if P p then count + 1 else count) n =
        n + (l.filter fun p => decide (P p)).length := by
  intro l
  induction l with
  | nil => intro n; simp
  | cons a t ih =>
    intro n
    by_cases h : P a
    · simp only [List.foldl_cons, List.filter_cons, h, decide_eq_true_eq, if_pos h,
        List.length_cons, ih]
      simp [h]
      omega
    · simp only [List.foldl_cons, List.filter_cons, if_neg h, ih]
      simp [h]

/-- `countLiveNeighbors` equals the number of the eight offsets whose neighbor
passes the bounds-and-liveness test. -/
theorem countLiveNeighbors_eq_filter (g : Game) (x y : Int) :
    countLiveNeighbors g x y =
      (neighborOffsets.filter fun p =>
        decide (0 ≤ x + p.1 ∧ x + p.1 < g.columns ∧ 0 ≤ y + p.2 ∧ y + p.2 < g.rows ∧
          g.grid (x + p.1) (y + p.2) = true)).length := by
  have h := foldl_count_eq_length_filter
    (fun p : Int × Int =>
      0 ≤ x + p.1 ∧ x + p.1 < g.columns ∧ 0 ≤ y + p.2 ∧ y + p.2 < g.rows ∧
        g.grid (x + p.1) (y + p.2) = true) neighborOffsets 0
  simpa [countLiveNeighbors] using h

/-- If every offset contributing to `countLiveNeighbors` satisfies `q`, the
count is bounded by the number of offsets satisfying `q`. -/
theorem countLiveNeighbors_le_of_imp (g : Game) (x y : Int) (q : Int × Int → Prop)
    [DecidablePred q]
    (himp : ∀ p : Int × Int,
      (0 ≤ x + p.1 ∧ x + p.1 < g.columns ∧ 0 ≤ y + p.2 ∧ y + p.2 < g.rows ∧
        g.grid (x + p.1) (y + p.2) = true) → q p) :
    countLiveNeighbors g x y ≤ (neighborOffsets.filter fun p => decide (q p)).length := by
  rw [countLiveNeighbors_eq_filter g x y]
  refine List.Sublist.length_le (List.monotone_filter_right _ ?_)
  intro a ha
  simp only [decide_eq_true_eq] at ha ⊢
  exact himp a ha

/-- Claim C3: for every active cell, `countLiveNeighbors` is in [0, 8]
(it returns a `Nat`, so 0 ≤ count is automatic), at most 3 when the cell is a
corner, and at most 5 whenever the cell lies on a boundary row or column
(in particular for the non-corner edge cells). -/
theorem countLiveNeighbors_bounds (g : Game) (x y : Int)
    (hx0 : 0 ≤ x) (hx1 : x < g.columns) (hy0 : 0 ≤ y) (hy1 : y < g.rows) :
    countLiveNeighbors g x y ≤ 8 ∧
    ((x = 0 ∨ x = g.columns - 1) ∧ (y = 0 ∨ y = g.rows - 1) →
      countLiveNeighbors g x y ≤ 3) ∧
    ((x = 0 ∨ x = g.columns - 1 ∨ y = 0 ∨ y = g.rows - 1) →
      countLiveNeighbors g x y ≤ 5) := by
  refine ⟨?_, ?_, ?_⟩
  · rw [countLiveNeighbors_eq_filter g x y]
    exact le_trans (List.length_filter_le _ _) (by decide)
  · rintro ⟨hx, hy⟩
    rcases hx with rfl | hx2 <;> rcases hy with rfl | hy2
    · exact le_trans
        (countLiveNeighbors_le_of_imp g 0 0 (fun p => 0 ≤ p.1 ∧ 0 ≤ p.2)
          (by intro p hp; omega))
        (by decide)
    · subst hy2
      exact le_trans
        (countLiveNeighbors_le_of_imp g 0 (g.rows - 1) (fun p => 0 ≤ p.1 ∧ p.2 ≤ 0)
          (by intro p hp; omega))
        (by decide)
    · subst hx2
      exact le_trans
        (countLiveNeighbors_le_of_imp g (g.columns - 1) 0 (fun p => p.1 ≤ 0 ∧ 0 ≤ p.2)
          (by intro p hp; omega))
        (by decide)
    · subst hx2; subst hy2
      exact le_trans
        (countLiveNeighbors_le_of_imp g (g.columns - 1) (g.rows - 1)
          (fun p => p.1 ≤ 0 ∧ p.2 ≤ 0) (by intro p hp; omega))
        (by decide)
  · intro hb
    rcases hb with rfl | hx2 | rfl | hy2
    · exact le_trans
        (countLiveNeighbors_le_of_imp g 0 y (fun p => 0 ≤ p.1)
          (by intro p hp; omega))
        (by decide)
    · subst hx2
      exact le_trans
        (countLiveNeighbors_le_of_imp g (g.columns - 1) y (fun p => p.1 ≤ 0)
          (by intro p hp; omega))
        (by decide)
    · exact le_trans
        (countLiveNeighbors_le_of_imp g x 0 (fun p => 0 ≤ p.2)
          (by intro p hp; omega))
        (by decide)
    · subst hy2
      exact le_trans
        (countLiveNeighbors_le_of_imp g x (g.rows - 1) (fun p => p.2 ≤ 0)
          (by intro p hp; omega))
        (by decide)

/-- Witness for C3 at the corner (0, 0) of `smallGame`. -/
theorem countLiveNeighbors_bounds_witness :
    (0 ≤ (0 : Int) ∧ (0 : Int) < smallGame.columns ∧
      0 ≤ (0 : Int) ∧ (0 : Int) < smallGame.rows) ∧
    (countLiveNeighbors smallGame 0 0 ≤ 8 ∧
      (((0 : Int) = 0 ∨ (0 : Int) = smallGame.columns - 1) ∧
          ((0 : Int) = 0 ∨ (0 : Int) = smallGame.rows - 1) →
        countLiveNeighbors smallGame 0 0 ≤ 3) ∧
      (((0 : Int) = 0 ∨ (0 : Int) = smallGame.columns - 1 ∨
          (0 : Int) = 0 ∨ (0 : Int) = smallGame.rows - 1) →
        countLiveNeighbors smallGame 0 0 ≤ 5)) :=
  ⟨by decide,
    countLiveNeighbors_bounds smallGame 0 0 (by decide) (by decide) (by decide) (by decide)⟩

/-- A predicate that fails on all eight neighbor offsets has count 0. -/
theorem countP_offsets_zero (P : Int × Int → Prop) [DecidablePred P]
    (h : ∀ u v : Int, (u, v) ∈ neighborOffsets → ¬ P (u, v)) :
    neighborOffsets.countP (fun p => decide (P p)) = 0 := by
  rw [List.countP_eq_zero]
  intro p hp
  simp only [decide_eq_true_eq]
  exact h p.1 p.2 hp

set_option maxHeartbeats 1000000 in
/-- Closed form for the number of Moore-neighborhood offsets landing on a
horizontal 3-cell segment, as a function of the relative position `(a, b)`
of the segment's center (`a` columns and `b` rows away from the cell). -/
theorem countP_windowH (a b : Int) :
    neighborOffsets.countP (fun p =>
      decide (b + p.2 = 0 ∧ (a + p.1 = -1 ∨ a + p.1 = 0 ∨ a + p.1 = 1))) =
      (if b = -1 ∨ b = 1 then
        if a = 0 then 3 else if a = -1 ∨ a = 1 then 2 else if a = -2 ∨ a = 2 then 1 else 0
      else if b = 0 then
        if a = 0 then 2 else if a = -1 ∨ a = 1 ∨ a = -2 ∨ a = 2 then 1 else 0
      else 0) := by
  have ha : a = -2 ∨ a = -1 ∨ a = 0 ∨ a = 1 ∨ a = 2 ∨ (a ≤ -3 ∨ 3 ≤ a) := by omega
  have hb : b = -1 ∨ b = 0 ∨ b = 1 ∨ (b ≤ -2 ∨ 2 ≤ b) := by omega
  have hzero : (b ≤ -2 ∨ 2 ≤ b) ∨ (a ≤ -3 ∨ 3 ≤ a) →
      neighborOffsets.countP (fun p =>
        decide (b + p.2 = 0 ∧ (a + p.1 = -1 ∨ a + p.1 = 0 ∨ a + p.1 = 1))) = 0 := by
    intro hfar
    apply countP_offsets_zero
    intro u v hmem
    simp only [neighborOffsets, List.mem_cons, List.not_mem_nil, or_false,
      Prod.mk.injEq] at hmem
    rcases hmem with h | h | h | h | h | h | h | h <;>
      obtain ⟨rfl, rfl⟩ := h <;> omega
  rcases hb with rfl | rfl | rfl | hbfar
  · rcases ha with rfl | rfl | rfl | rfl | rfl | hafar
    · decide
    · decide
    · decide
    · decide
    · decide
    · rw [hzero (Or.inr hafar)]
      split_ifs <;> omega
  · rcases ha with rfl | rfl | rfl | rfl | rfl | hafar
    · decide
    · decide
    · decide
    · decide
    · decide
    · rw [hzero (Or.inr hafar)]
      split_ifs <;> omega
  · rcases ha with rfl | rfl | rfl | rfl | rfl | hafar
    · decide
    · decide
    · decide
    · decide
    · decide
    · rw [hzero (Or.inr hafar)]
      split_ifs <;> omega
  · rw [hzero (Or.inl hbfar)]
    split_ifs <;> omega

set_option maxHeartbeats 1000000 in
/-- Closed form for the number of Moore-neighborhood offsets landing on a
vertical 3-cell segment, as a function of the relative position `(a, b)`
of the segment's center. -/
theorem countP_windowV (a b : Int) :
    neighborOffsets.countP (fun p =>
      decide (a + p.1 = 0 ∧ (b + p.2 = -1 ∨ b + p.2 = 0 ∨ b + p.2 = 1))) =
      (if a = -1 ∨ a = 1 then
        if b = 0 then 3 else if b = -1 ∨ b = 1 then 2 else if b = -2 ∨ b = 2 then 1 else 0
      else if a = 0 then
        if b = 0 then 2 else if b = -1 ∨ b = 1 ∨ b = -2 ∨ b = 2 then 1 else 0
      else 0) := by
  have hb : b = -2 ∨ b = -1 ∨ b = 0 ∨ b = 1 ∨ b = 2 ∨ (b ≤ -3 ∨ 3 ≤ b) := by omega
  have ha : a = -1 ∨ a = 0 ∨ a = 1 ∨ (a ≤ -2 ∨ 2 ≤ a) := by omega
  have hzero : (a ≤ -2 ∨ 2 ≤ a) ∨ (b ≤ -3 ∨ 3 ≤ b) →
      neighborOffsets.countP (fun p =>
        decide (a + p.1 = 0 ∧ (b + p.2 = -1 ∨ b + p.2 = 0 ∨ b + p.2 = 1))) = 0 := by
    intro hfar
    apply countP_offsets_zero
    intro u v hmem
    simp only [neighborOffsets, List.mem_cons, List.not_mem_nil, or_false,
      Prod.mk.injEq] at hmem
    rcases hmem with h | h | h | h | h | h | h | h <;>
      obtain ⟨rfl, rfl⟩ := h <;> omega
  rcases ha with rfl | rfl | rfl | hafar
  · rcases hb with rfl | rfl | rfl | rfl | rfl | hbfar
    · decide
    · decide
    · decide
    · decide
    · decide
    · rw [hzero (Or.inr hbfar)]
      split_ifs <;> omega
  · rcases hb with rfl | rfl | rfl | rfl | rfl | hbfar
    · decide
    · decide
    · decide
    · decide
    · decide
    · rw [hzero (Or.inr hbfar)]
      split_ifs <;> omega
  · rcases hb with rfl | rfl | rfl | rfl | rfl | hbfar
    · decide
    · decide
    · decide
    · decide
    · decide
    · rw [hzero (Or.inr hbfar)]
      split_ifs <;> omega
  · rw [hzero (Or.inl hafar)]
    split_ifs <;> omega

set_option maxHeartbeats 1000000 in
/-- One generation step maps a horizontal 3-cell blinker with one cell of
clearance from every edge to the corresponding vertical 3-cell blinker. -/
theorem blinkerH_step (g : Game) (c r : Int)
    (hc1 : 2 ≤ c) (hc2 : c ≤ g.columns - 3) (hr1 : 1 ≤ r) (hr2 : r ≤ g.rows - 2)
    (hg : ∀ i j, 0 ≤ i → i < g.columns → 0 ≤ j → j < g.rows →
      (g.grid i j = true ↔ (j = r ∧ (i = c - 1 ∨ i = c ∨ i = c + 1)))) :
    ∀ i j, 0 ≤ i → i < g.columns → 0 ≤ j → j < g.rows →
      ((cycle g).grid i j = true ↔ (i = c ∧ (j = r - 1 ∨ j = r ∨ j = r + 1))) := by
  have hcnt : ∀ i j : Int, countLiveNeighbors g i j =
      neighborOffsets.countP (fun p =>
        decide ((j - r) + p.2 = 0 ∧
          ((i - c) + p.1 = -1 ∨ (i - c) + p.1 = 0 ∨ (i - c) + p.1 = 1))) := by
    intro i j
    rw [countLiveNeighbors_eq_filter, ← List.countP_eq_length_filter]
    apply List.countP_congr
    intro p hp
    simp only [decide_eq_true_eq]
    constructor
    · rintro ⟨h1, h2, h3, h4, h5⟩
      have := (hg _ _ h1 h2 h3 h4).mp h5
      omega
    · intro hw
      have hb1 : 0 ≤ i + p.1 := by omega
      have hb2 : i + p.1 < g.columns := by omega
      have hb3 : 0 ≤ j + p.2 := by omega
      have hb4 : j + p.2 < g.rows := by omega
      exact ⟨hb1, hb2, hb3, hb4, (hg _ _ hb1 hb2 hb3 hb4).mpr (by omega)⟩
  intro i j hi0 hi1 hj0 hj1
  simp only [cycle]
  rw [if_pos ⟨hi0, hi1, hj0, hj1⟩]
  by_cases hp : (j = r ∧ (i = c - 1 ∨ i = c ∨ i = c + 1))
  · rw [(hg i j hi0 hi1 hj0 hj1).mpr hp, if_pos rfl, hcnt i j,
      countP_windowH (i - c) (j - r)]
    simp only [Bool.or_eq_true, beq_iff_eq]
    split_ifs <;> omega
  · have hdead : g.grid i j = false := by
      cases hv : g.grid i j with
      | false => rfl
      | true => exact absurd ((hg i j hi0 hi1 hj0 hj1).mp hv) hp
    rw [hdead, if_neg (by simp), hcnt i j, countP_windowH (i - c) (j - r)]
    simp only [beq_iff_eq]
    split_ifs <;> first
      | omega
      | (simp only [false_iff, true_iff]; omega)

set_option maxHeartbeats 1000000 in
/-- One generation step maps a vertical 3-cell blinker (in bounds, with a
live column neighbor margin) back to the corresponding horizontal blinker. -/
theorem blinkerV_step (g : Game) (c r : Int)
    (hc1 : 1 ≤ c) (hc2 : c ≤ g.columns - 2) (hr1 : 1 ≤ r) (hr2 : r ≤ g.rows - 2)
    (hg : ∀ i j, 0 ≤ i → i < g.columns → 0 ≤ j → j < g.rows →
      (g.grid i j = true ↔ (i = c ∧ (j = r - 1 ∨ j = r ∨ j = r + 1)))) :
    ∀ i j, 0 ≤ i → i < g.columns → 0 ≤ j → j < g.rows →
      ((cycle g).grid i j = true ↔ (j = r ∧ (i = c - 1 ∨ i = c ∨ i = c + 1))) := by
  have hcnt : ∀ i j : Int, countLiveNeighbors g i j =
      neighborOffsets.countP (fun p =>
        decide ((i - c) + p.1 = 0 ∧
          ((j - r) + p.2 = -1 ∨ (j - r) + p.2 = 0 ∨ (j - r) + p.2 = 1))) := by
    intro i j
    rw [countLiveNeighbors_eq_filter, ← List.countP_eq_length_filter]
    apply List.countP_congr
    intro p hp
    simp only [decide_eq_true_eq]
    constructor
    · rintro ⟨h1, h2, h3, h4, h5⟩
      have := (hg _ _ h1 h2 h3 h4).mp h5
      omega
    · intro hw
      have hb1 : 0 ≤ i + p.1 := by omega
      have hb2 : i + p.1 < g.columns := by omega
      have hb3 : 0 ≤ j + p.2 := by omega
      have hb4 : j + p.2 < g.rows := by omega
      exact ⟨hb1, hb2, hb3, hb4, (hg _ _ hb1 hb2 hb3 hb4).mpr (by omega)⟩
  intro i j hi0 hi1 hj0 hj1
  simp only [cycle]
  rw [if_pos ⟨hi0, hi1, hj0, hj1⟩]
  by_cases hp : (i = c ∧ (j = r - 1 ∨ j = r ∨ j = r + 1))
  · rw [(hg i j hi0 hi1 hj0 hj1).mpr hp, if_pos rfl, hcnt i j,
      countP_windowV (i - c) (j - r)]
    simp only [Bool.or_eq_true, beq_iff_eq]
    split_ifs <;> omega
  · have hdead : g.grid i j = false := by
      cases hv : g.grid i j with
      | false => rfl
      | true => exact absurd ((hg i j hi0 hi1 hj0 hj1).mp hv) hp
    rw [hdead, if_neg (by simp), hcnt i j, countP_windowV (i - c) (j - r)]
    simp only [beq_iff_eq]
    split_ifs <;> first
      | omega
      | (simp only [false_iff, true_iff]; omega)

/-- Claim C9: a grid whose only live cells are a horizontal 3-in-a-row triple
centered at `(c, r)`, placed with at least one dead cell of clearance from
every edge, becomes the corresponding vertical 3-in-a-column triple after one
step, and a second step restores the original grid (the blinker has
period 2). -/
theorem blinker_period_two (g : Game) (c r : Int)
    (hc1 : 2 ≤ c) (hc2 : c ≤ g.columns - 3) (hr1 : 1 ≤ r) (hr2 : r ≤ g.rows - 2)
    (hg : ∀ i j, 0 ≤ i → i < g.columns → 0 ≤ j → j < g.rows →
      (g.grid i j = true ↔ (j = r ∧ (i = c - 1 ∨ i = c ∨ i = c + 1)))) :
    (∀ i j, 0 ≤ i → i < g.columns → 0 ≤ j → j < g.rows →
      ((cycle g).grid i j = true ↔ (i = c ∧ (j = r - 1 ∨ j = r ∨ j = r + 1)))) ∧
    (∀ i j, 0 ≤ i → i < g.columns → 0 ≤ j → j < g.rows →
      (cycle (cycle g)).grid i j = g.grid i j) := by
  have h1 := blinkerH_step g c r hc1 hc2 hr1 hr2 hg
  have h2 := blinkerV_step (cycle g) c r
    (by omega) (show c ≤ g.columns - 2 by omega)
    (by omega) (show r ≤ g.rows - 2 by omega) h1
  refine ⟨h1, ?_⟩
  intro i j hi0 hi1 hj0 hj1
  have ha := h2 i j hi0 hi1 hj0 hj1
  have hb := hg i j hi0 hi1 hj0 hj1
  exact Bool.coe_iff_coe.mp (ha.trans hb.symm)

/-- Witness for C9: the horizontal blinker of `sampleGame` (centered at
(2, 2)) oscillates with period 2. -/
theorem blinker_period_two_witness :
    (2 ≤ (2 : Int) ∧ (2 : Int) ≤ sampleGame.columns - 3 ∧
      1 ≤ (2 : Int) ∧ (2 : Int) ≤ sampleGame.rows - 2) ∧
    ((∀ i j, 0 ≤ i → i < sampleGame.columns → 0 ≤ j → j < sampleGame.rows →
        ((cycle sampleGame).grid i j = true ↔
          (i = 2 ∧ (j = 2 - 1 ∨ j = 2 ∨ j = 2 + 1)))) ∧
      (∀ i j, 0 ≤ i → i < sampleGame.columns → 0 ≤ j → j < sampleGame.rows →
        (cycle (cycle sampleGame)).grid i j = sampleGame.grid i j)) :=
  ⟨by decide,
    blinker_period_two sampleGame 2 2 (by decide) (by decide) (by decide) (by decide)
      (by
        intro i j h1 h2 h3 h4
        simp only [sampleGame, decide_eq_true_eq]
        omega)⟩

end GoL
